import Mathlib

/-!
Shallow embedding of the marketplace bot's core logic
(src/services/ad_service.py, src/services/moderation_service.py,
src/database/models/{ad,report,subscription}.py, src/utils/validators.py).

The database is modelled as a list of rows; SQL `UPDATE ... WHERE p` is the
pure function `updateWhere p f`, returning the new table and the rowcount.
Wall-clock timestamp columns (created_at, updated_at, reviewed_at) are not
modelled; no claim mentions them.  Python string truthiness (`if self.keywords:`)
is modelled by `strTruthy`; SQL `lower(x) LIKE %lower(y)%` and Python
case-insensitive substring tests are modelled by `containsCI` (substring
containment after per-character lowering).
-/

/-- AdStatus enum from src/database/models/ad.py. -/
inductive AdStatus
  | PENDING
  | ACTIVE
  | REJECTED
  | RENTED
  | CLOSED
deriving DecidableEq

/-- ReportStatus enum from src/database/models/report.py. -/
inductive ReportStatus
  | PENDING
  | REVIEWED
  | DISMISSED
deriving DecidableEq

/-- ReportReason enum from src/database/models/report.py. -/
inductive ReportReason
  | SPAM
  | FRAUD
  | INAPPROPRIATE
  | WRONG_CATEGORY
  | FAKE
  | OTHER
deriving DecidableEq

/-- Ad row, from the Ad model in src/database/models/ad.py
(timestamp columns elided; prices are exact rationals standing for Decimal). -/
structure Ad where
  id : Nat
  owner_id : Nat
  title : String
  description : String
  price_per_day : ℚ
  location : String
  category : String
  contact_info : String
  photo_id : Option String
  status : AdStatus
  rejection_reason : Option String
  views_count : Nat
deriving DecidableEq

/-- Report row, from the Report model in src/database/models/report.py
(created_at / reviewed_at elided). -/
structure Report where
  id : Nat
  reason : ReportReason
  description : Option String
  status : ReportStatus
  admin_comment : Option String
  reporter_id : Nat
  ad_id : Nat
  reviewed_by : Option Nat
deriving DecidableEq

/-- Subscription row, from src/database/models/subscription.py
(created_at elided). -/
structure Subscription where
  id : Nat
  keywords : Option String
  category : Option String
  location : Option String
  max_price : Option ℚ
  is_active : Bool
  user_id : Nat
deriving DecidableEq

/-- Python truthiness of an optional string column: None and the empty
string are falsy, every other string is truthy. -/
def strTruthy : Option String → Bool
  | none => false
  | some s => decide (s ≠ "")

/-- Python truthiness of an optional Decimal column: None and 0 are falsy. -/
def priceTruthy : Option ℚ → Bool
  | none => false
  | some p => decide (p ≠ 0)

/-- Lower-cased character list of a string (SQL lower / Python str.lower). -/
def lowerStr (s : String) : List Char := s.toList.map Char.toLower

/-- Case-insensitive substring containment: models both Python's
`needle.lower() in hay.lower()` and SQL `lower(hay) LIKE %lower(needle)%`
(the LIKE pattern is the needle embedded between wildcards). -/
def containsCI (hay needle : String) : Bool :=
  decide (lowerStr needle <:+: lowerStr hay)

/-- SQL `UPDATE t SET f WHERE p`: rewrite every row satisfying p and return
the new table together with the rowcount. -/
def updateWhere {α : Type} (p : α → Bool) (f : α → α) (xs : List α) : List α × Nat :=
  (xs.map fun a => if p a then f a else a, (xs.filter p).length)

/-- Conditional query narrowing, mirroring the SQLAlchemy pattern
`if cond: query = query.where(p)` in AdService.search. -/
def filterIf {α : Type} (cond : Bool) (p : α → Bool) (xs : List α) : List α :=
  if cond then xs.filter p else xs

/-- Keyword guard of Subscription.matches_ad (subscription.py lines 107-113):
when the keywords criterion is truthy, it must occur case-insensitively
in the ad's title or description. -/
def keywordCrit (s : Subscription) (ad : Ad) : Bool :=
  if strTruthy s.keywords then
    containsCI ad.title (s.keywords.getD "") || containsCI ad.description (s.keywords.getD "")
  else true

/-- Category guard of Subscription.matches_ad (subscription.py line 116):
exact equality when the category criterion is truthy. -/
def categoryCrit (s : Subscription) (ad : Ad) : Bool :=
  if strTruthy s.category then decide (s.category.getD "" = ad.category) else true

/-- Location guard of Subscription.matches_ad (subscription.py lines 120-122). -/
def locationCrit (s : Subscription) (ad : Ad) : Bool :=
  if strTruthy s.location then containsCI ad.location (s.location.getD "") else true

/-- Max-price guard of Subscription.matches_ad (subscription.py line 125):
when the max_price criterion is truthy the ad price must not exceed it. -/
def priceCrit (s : Subscription) (ad : Ad) : Bool :=
  if priceTruthy s.max_price then decide (ad.price_per_day ≤ s.max_price.getD 0) else true

/-- Subscription.matches_ad (subscription.py lines 96-128): the method is a
sequence of guard-and-return-False checks followed by `return True`, i.e. the
conjunction of the four per-criterion guards. -/
def Subscription.matches_ad (s : Subscription) (ad : Ad) : Bool :=
  keywordCrit s ad && categoryCrit s ad && locationCrit s ad && priceCrit s ad

/-- Accumulator-based scanner realising Python str.split() (split on
whitespace runs, dropping empty chunks), used by validate_title. -/
def pyWordsAux : List Char → List Char → List (List Char)
  | [], acc => if acc = [] then [] else [acc.reverse]
  | c :: rest, acc =>
    if c.isWhitespace then
      if acc = [] then pyWordsAux rest []
      else acc.reverse :: pyWordsAux rest []
    else pyWordsAux rest (c :: acc)

/-- Python `title.split()`. -/
def pyWords (cs : List Char) : List (List Char) :=
  pyWordsAux cs []

/-- Python `' '.join(title.split())` from validate_title (validators.py line 47). -/
def pyCleanWs (s : String) : String :=
  String.mk (List.intercalate [' '] (pyWords s.toList))

/-- Spam regex r'(.)\1{5,}' with re.IGNORECASE: six or more equal consecutive
characters, compared after lowering. -/
def hasRun6 : List Char → Bool
  | [] => false
  | c :: rest => (decide (rest.take 5 = List.replicate 5 c)) || hasRun6 rest

/-- The spam_patterns check of validate_title (validators.py lines 50-53):
r'(.)\1{5,}', r'https?://' and r't\.me/', all searched with re.IGNORECASE. -/
def isSpamTitle (cs : List Char) : Bool :=
  let low := cs.map Char.toLower
  hasRun6 low
    || decide ("http://".toList <:+: low)
    || decide ("https://".toList <:+: low)
    || decide ("t.me/".toList <:+: low)

/-- validate_title from src/utils/validators.py lines 43-54: reject empty
input, collapse whitespace, enforce cleaned length in [3, 200], reject
spam patterns, and return the cleaned title. -/
def validate_title (title : String) : Option String :=
  if title = "" then none
  else
    let cleaned := pyCleanWs title
    if cleaned.length < 3 ∨ 200 < cleaned.length then none
    else if isSpamTitle cleaned.toList then none
    else some cleaned

/-- Decimal.quantize(Decimal(1)/100) with the default ROUND_HALF_EVEN:
round to hundredths, ties to the even hundredth. -/
def quantize2 (q : ℚ) : ℚ :=
  let x := q * 100
  let f : ℤ := Int.floor x
  let r := x - f
  let n : ℤ :=
    if r < 1 / 2 then f
    else if 1 / 2 < r then f + 1
    else if f % 2 = 0 then f else f + 1
  (n : ℚ) / 100

/-- Numeric core of validate_price (validators.py lines 30-40), over the
value parsed from the cleaned string (the currency-symbol stripping and
Decimal parsing of the string argument are elided; the range test
`price <= 0 or price > Decimal(10000000)` and the quantization are kept). -/
def validate_price (price : ℚ) : Option ℚ :=
  if price ≤ 0 ∨ 10000000 < price then none
  else some (quantize2 price)

/-- AdService.get_by_id (ad_service.py lines 77-93): select the row with the
given primary key. -/
def AdService.get_by_id (db : List Ad) (ad_id : Nat) : Option Ad :=
  db.find? fun a => decide (a.id = ad_id)

/-- Row updates applied by AdService.update_ad: **fields filtered to the
allow-listed mutable columns; `none` means the key is absent from the call,
`some` that it is supplied (note photo_id may be supplied as NULL). -/
structure UpdateFields where
  title : Option String := none
  description : Option String := none
  price_per_day : Option ℚ := none
  location : Option String := none
  category : Option String := none
  contact_info : Option String := none
  photo_id : Option (Option String) := none
deriving DecidableEq

/-- Python's `if not update_data:` — no allow-listed field was supplied. -/
def UpdateFields.isEmpty (f : UpdateFields) : Bool :=
  f.title.isNone && f.description.isNone && f.price_per_day.isNone
    && f.location.isNone && f.category.isNone && f.contact_info.isNone
    && f.photo_id.isNone

/-- Apply the supplied columns of an update to a row (`values(**update_data)`
without the forced status / rejection_reason part). -/
def UpdateFields.apply (f : UpdateFields) (a : Ad) : Ad :=
  { a with
    title := f.title.getD a.title
    description := f.description.getD a.description
    price_per_day := f.price_per_day.getD a.price_per_day
    location := f.location.getD a.location
    category := f.category.getD a.category
    contact_info := f.contact_info.getD a.contact_info
    photo_id := f.photo_id.getD a.photo_id }

/-- AdService.update_ad (ad_service.py lines 252-301): load the ad, refuse
when missing or not owned by the caller, refuse when no allow-listed field
is supplied, otherwise update the row by primary key, forcing status to
PENDING and clearing rejection_reason; return rowcount > 0. -/
def AdService.update_ad (db : List Ad) (ad_id owner_id : Nat)
    (fields : UpdateFields) : List Ad × Bool :=
  match AdService.get_by_id db ad_id with
  | none => (db, false)
  | some ad =>
    if ad.owner_id ≠ owner_id then (db, false)
    else if fields.isEmpty then (db, false)
    else
      let res := updateWhere (fun a => decide (a.id = ad_id))
        (fun a => { fields.apply a with status := .PENDING, rejection_reason := none }) db
      (res.1, decide (0 < res.2))

/-- AdService.set_status (ad_service.py lines 303-329): owner-driven
transition, target restricted to RENTED / CLOSED, applied by a conditional
UPDATE requiring the primary key, ownership and current status ACTIVE;
returns rowcount > 0. -/
def AdService.set_status (db : List Ad) (ad_id owner_id : Nat)
    (status : AdStatus) : List Ad × Bool :=
  if ¬(status = .RENTED ∨ status = .CLOSED) then (db, false)
  else
    let res := updateWhere
      (fun a => decide (a.id = ad_id ∧ a.owner_id = owner_id ∧ a.status = .ACTIVE))
      (fun a => { a with status := status }) db
    (res.1, decide (0 < res.2))

/-- AdService.search (ad_service.py lines 122-185): start from ACTIVE rows,
conditionally narrow by keyword (case-insensitive containment in title or
description), location containment, exact category, and inclusive price
bounds, then paginate (the `order_by created_at desc` clause concerns the
unmodelled timestamps and is elided; it does not affect the result set). -/
def AdService.search (db : List Ad) (keywords location category : Option String)
    (min_price max_price : Option ℚ) (limit offset : Nat) : List Ad :=
  let q0 := db.filter fun a => decide (a.status = AdStatus.ACTIVE)
  let q1 := filterIf (strTruthy keywords)
    (fun a => containsCI a.title (keywords.getD "") || containsCI a.description (keywords.getD "")) q0
  let q2 := filterIf (strTruthy location)
    (fun a => containsCI a.location (location.getD "")) q1
  let q3 := filterIf (strTruthy category)
    (fun a => decide (a.category = category.getD "")) q2
  let q4 := filterIf min_price.isSome
    (fun a => decide (min_price.getD 0 ≤ a.price_per_day)) q3
  let q5 := filterIf max_price.isSome
    (fun a => decide (a.price_per_day ≤ max_price.getD 0)) q4
  (q5.drop offset).take limit

/-- ModerationService.approve_ad (moderation_service.py lines 61-90): select
the ad by id conditioned on status PENDING; if absent return None, else set
its status to ACTIVE and return the updated ad (the moderator id is only
logged). -/
def ModerationService.approve_ad (db : List Ad) (ad_id moderator_id : Nat) :
    List Ad × Option Ad :=
  match db.find? (fun a => decide (a.id = ad_id ∧ a.status = .PENDING)) with
  | none => (db, none)
  | some ad =>
    let upd := fun (a : Ad) => { a with status := AdStatus.ACTIVE }
    ((updateWhere (fun a => decide (a.id = ad_id ∧ a.status = .PENDING)) upd db).1,
      some (upd ad))

/-- ModerationService.reject_ad (moderation_service.py lines 92-126): select
the ad by id conditioned on status PENDING; if absent return None, else set
status REJECTED and attach the given reason (the function performs no check
on the reason string itself). -/
def ModerationService.reject_ad (db : List Ad) (ad_id moderator_id : Nat)
    (reason : String) : List Ad × Option Ad :=
  match db.find? (fun a => decide (a.id = ad_id ∧ a.status = .PENDING)) with
  | none => (db, none)
  | some ad =>
    let upd := fun (a : Ad) =>
      { a with status := AdStatus.REJECTED, rejection_reason := some reason }
    ((updateWhere (fun a => decide (a.id = ad_id ∧ a.status = .PENDING)) upd db).1,
      some (upd ad))

/-- The mutable store seen by ModerationService.review_report: the ads table
and the reports table. -/
structure ModState where
  ads : List Ad
  reports : List Report
deriving DecidableEq

/-- ModerationService.review_report (moderation_service.py lines 190-237):
select the report by id conditioned on status PENDING (None when absent);
record reviewer and comment; on action 'approve' mark the report REVIEWED
and force the referenced ad (when present, `if report.ad:`) to CLOSED; on
any other action mark the report DISMISSED and leave ads untouched. -/
def ModerationService.review_report (st : ModState) (report_id moderator_id : Nat)
    (action : String) (comment : Option String) : ModState × Option Report :=
  match st.reports.find? (fun r => decide (r.id = report_id ∧ r.status = .PENDING)) with
  | none => (st, none)
  | some rep =>
    if action = "approve" then
      let upd := fun (r : Report) =>
        { r with reviewed_by := some moderator_id, admin_comment := comment,
                 status := ReportStatus.REVIEWED }
      let reports' := (updateWhere
        (fun r => decide (r.id = report_id ∧ r.status = .PENDING)) upd st.reports).1
      let ads' := (updateWhere (fun a => decide (a.id = rep.ad_id))
        (fun a => { a with status := AdStatus.CLOSED }) st.ads).1
      (⟨ads', reports'⟩, some (upd rep))
    else
      let upd := fun (r : Report) =>
        { r with reviewed_by := some moderator_id, admin_comment := comment,
                 status := ReportStatus.DISMISSED }
      (⟨st.ads, (updateWhere
        (fun r => decide (r.id = report_id ∧ r.status = .PENDING)) upd st.reports).1⟩,
        some (upd rep))

/-- Concrete REJECTED ad used to exercise the edit operation. -/
def exAdRejected : Ad :=
  { id := 1, owner_id := 7, title := "Old drill", description := "A well-used drill",
    price_per_day := 5, location := "Moscow", category := "Tools",
    contact_info := "@owner", photo_id := none, status := .REJECTED,
    rejection_reason := some "bad photos", views_count := 0 }

/-- Concrete PENDING ad used to exercise moderation. -/
def exAdPending : Ad :=
  { id := 1, owner_id := 7, title := "New drill", description := "A shiny new drill",
    price_per_day := 10, location := "Moscow", category := "Tools",
    contact_info := "@owner", photo_id := none, status := .PENDING,
    rejection_reason := none, views_count := 0 }

/-- Concrete RENTED ad referenced by the example report. -/
def exAdRented : Ad :=
  { id := 2, owner_id := 7, title := "Bosch saw", description := "Sharp saw",
    price_per_day := 20, location := "Moscow", category := "Tools",
    contact_info := "@owner", photo_id := none, status := .RENTED,
    rejection_reason := none, views_count := 3 }

/-- Concrete ACTIVE ad used to exercise search and matching. -/
def exAdActive : Ad :=
  { id := 3, owner_id := 7, title := "Bosch Drill", description := "Powerful tool",
    price_per_day := 500, location := "Moscow", category := "Tools",
    contact_info := "@owner", photo_id := none, status := .ACTIVE,
    rejection_reason := none, views_count := 1 }

/-- Concrete PENDING report against the RENTED ad. -/
def exReport : Report :=
  { id := 1, reason := .SPAM, description := none, status := .PENDING,
    admin_comment := none, reporter_id := 4, ad_id := 2, reviewed_by := none }

/-- Subscription with every criterion unset. -/
def exSubNone : Subscription :=
  { id := 1, keywords := none, category := none, location := none,
    max_price := none, is_active := true, user_id := 5 }

/-- Subscription with only the keyword criterion set. -/
def exSubKw : Subscription :=
  { id := 2, keywords := some "drill", category := none, location := none,
    max_price := none, is_active := true, user_id := 5 }

/-- Edit payload carrying a single allow-listed field. -/
def exFieldsTitle : UpdateFields :=
  { title := some "Newer drill" }

theorem updateWhere_nomatch {α : Type} (p : α → Bool) (f : α → α) (xs : List α)
    (h : ∀ a ∈ xs, p a = false) : updateWhere p f xs = (xs, 0) := by
  unfold updateWhere
  refine Prod.ext ?_ ?_
  · show xs.map _ = xs
    have hmap : xs.map (fun a => if p a then f a else a) = xs.map id :=
      List.map_congr_left (fun a ha => by simp [h a ha])
    simpa using hmap
  · show (xs.filter p).length = 0
    simp only [List.length_eq_zero]
    exact List.filter_eq_nil_iff.mpr (fun a ha => by simp [h a ha])

theorem mem_updateWhere_fst {α : Type} {p : α → Bool} {f : α → α} {xs : List α} {a : α}
    (h : a ∈ (updateWhere p f xs).1) : ∃ b ∈ xs, a = if p b then f b else b := by
  unfold updateWhere at h
  simp only [List.mem_map] at h
  obtain ⟨b, hb, hba⟩ := h
  exact ⟨b, hb, hba.symm⟩

theorem updateWhere_rowcount_pos {α : Type} {p : α → Bool} (f : α → α) {xs : List α} {b : α}
    (hb : b ∈ xs) (hp : p b = true) : 0 < (updateWhere p f xs).2 := by
  unfold updateWhere
  simp only
  rw [List.length_pos]
  intro hnil
  have : b ∈ xs.filter p := List.mem_filter.mpr ⟨hb, hp⟩
  simp [hnil] at this

theorem keywordCrit_congr (s1 s2 : Subscription) (ad : Ad)
    (h : s1.keywords = s2.keywords) : keywordCrit s1 ad = keywordCrit s2 ad := by
  unfold keywordCrit
  rw [h]

theorem categoryCrit_congr (s1 s2 : Subscription) (ad : Ad)
    (h : s1.category = s2.category) : categoryCrit s1 ad = categoryCrit s2 ad := by
  unfold categoryCrit
  rw [h]

theorem locationCrit_congr (s1 s2 : Subscription) (ad : Ad)
    (h : s1.location = s2.location) : locationCrit s1 ad = locationCrit s2 ad := by
  unfold locationCrit
  rw [h]

theorem priceCrit_congr (s1 s2 : Subscription) (ad : Ad)
    (h : s1.max_price = s2.max_price) : priceCrit s1 ad = priceCrit s2 ad := by
  unfold priceCrit
  rw [h]

theorem mem_filterIf {α : Type} {cond : Bool} {p : α → Bool} {xs : List α} {a : α}
    (h : a ∈ filterIf cond p xs) : a ∈ xs ∧ (cond = true → p a = true) := by
  unfold filterIf at h
  cases cond with
  | false =>
    simp only [Bool.false_eq_true, if_false] at h
    exact ⟨h, by simp⟩
  | true =>
    simp only [if_true] at h
    have := List.mem_filter.mp h
    exact ⟨this.1, fun _ => this.2⟩

/-- C5: a subscription with keyword, category, location and maximum-price
criteria all unset matches every ad. -/
theorem matches_ad_no_criteria (i : Nat) (act : Bool) (uid : Nat) (ad : Ad) :
    Subscription.matches_ad ⟨i, none, none, none, none, act, uid⟩ ad = true := by
  simp [Subscription.matches_ad, keywordCrit, categoryCrit, locationCrit, priceCrit,
    strTruthy, priceTruthy]

/-- C6: matches_ad is monotonic per criterion — whenever every criterion of
s1 is unset or equal to the corresponding criterion of s2 (in particular
when s2 is s1 plus one extra criterion), any ad matched by s2 is matched
by s1. -/
theorem matches_ad_monotone (s1 s2 : Subscription) (ad : Ad)
    (hk : s1.keywords = none ∨ s1.keywords = s2.keywords)
    (hc : s1.category = none ∨ s1.category = s2.category)
    (hl : s1.location = none ∨ s1.location = s2.location)
    (hp : s1.max_price = none ∨ s1.max_price = s2.max_price)
    (h : Subscription.matches_ad s2 ad = true) :
    Subscription.matches_ad s1 ad = true := by
  unfold Subscription.matches_ad at h ⊢
  simp only [Bool.and_eq_true] at h ⊢
  obtain ⟨⟨⟨h1, h2⟩, h3⟩, h4⟩ := h
  refine ⟨⟨⟨?_, ?_⟩, ?_⟩, ?_⟩
  · rcases hk with hk | hk
    · unfold keywordCrit
      rw [hk]
      simp [strTruthy]
    · rw [keywordCrit_congr s1 s2 ad hk]
      exact h1
  · rcases hc with hc | hc
    · unfold categoryCrit
      rw [hc]
      simp [strTruthy]
    · rw [categoryCrit_congr s1 s2 ad hc]
      exact h2
  · rcases hl with hl | hl
    · unfold locationCrit
      rw [hl]
      simp [strTruthy]
    · rw [locationCrit_congr s1 s2 ad hl]
      exact h3
  · rcases hp with hp | hp
    · unfold priceCrit
      rw [hp]
      simp [priceTruthy]
    · rw [priceCrit_congr s1 s2 ad hp]
      exact h4

/-- Witness for C6: the keyword-only subscription matches the concrete
active ad, hence so does the criterion-free subscription. -/
theorem matches_ad_monotone_witness :
    Subscription.matches_ad exSubNone exAdActive = true :=
  matches_ad_monotone exSubNone exSubKw exAdActive
    (Or.inl rfl) (Or.inl rfl) (Or.inl rfl) (Or.inl rfl) (by decide)

/-- C7 counterexample: the title " ab" has exactly 3 characters yet
validate_title rejects it (whitespace collapsing shortens it below the
minimum), refuting "every title of exactly 3 characters is accepted". -/
theorem validate_title_boundary_cex :
    (" ab" : String).length = 3 ∧ validate_title " ab" = none := by
  decide

/-- C7 amended: among titles already in collapsed-whitespace form, a
3-character title matching no spam pattern is accepted, a 200-character
one matching no spam pattern is accepted, and a 201-character one is
rejected; every 2-character title whatsoever is rejected; a price of
exactly 10,000,000 is accepted and every non-positive price is rejected. -/
theorem validators_boundary_amended :
    (∀ t : String, pyCleanWs t = t → isSpamTitle t.toList = false →
        t.length = 3 ∨ t.length = 200 → (validate_title t).isSome = true)
    ∧ (∀ t : String, pyCleanWs t = t → t.length = 201 → validate_title t = none)
    ∧ (∀ t : String, t.length = 2 → validate_title t = none)
    ∧ (validate_price 10000000).isSome = true
    ∧ (∀ p : ℚ, p ≤ 0 → validate_price p = none) := by
  refine ⟨?_, ?_, ?_, ?_, ?_⟩
  · intro t hnorm hspam hlen
    have ht0 : t ≠ "" := by
      intro he
      subst he
      rcases hlen with h | h <;> exact absurd h (by decide)
    simp only [String.toList] at hspam
    rcases hlen with h | h <;> simp [validate_title, ht0, hnorm, hspam, h]
  · intro t hnorm h201
    have ht0 : t ≠ "" := by
      intro he
      subst he
      exact absurd h201 (by decide)
    simp [validate_title, ht0, hnorm, h201]
  · intro t h2
    cases t with
    | mk data =>
      simp only [String.length] at h2
      rcases data with _ | ⟨c1, _ | ⟨c2, _ | ⟨c3, tl⟩⟩⟩ <;> simp at h2
      by_cases hw1 : c1.isWhitespace <;> by_cases hw2 : c2.isWhitespace <;>
        simp [validate_title, pyCleanWs, pyWords, pyWordsAux, hw1, hw2,
          String.ext_iff, String.length, String.toList, List.intercalate,
          List.intersperse]
  · decide
  · intro p hp
    unfold validate_price
    rw [if_pos (Or.inl hp)]

/-- Witness for the amended C7 at concrete inputs. -/
theorem validators_boundary_amended_witness :
    (validate_title "abc").isSome = true ∧ validate_title "ab" = none
      ∧ (validate_price 10000000).isSome = true ∧ validate_price (-1) = none :=
  ⟨validators_boundary_amended.1 "abc" (by decide) (by decide) (Or.inl (by decide)),
   validators_boundary_amended.2.2.1 "ab" (by decide),
   validators_boundary_amended.2.2.2.1,
   validators_boundary_amended.2.2.2.2 (-1) (by norm_num)⟩

/-- C10: an edit call supplying no allow-listed mutable field returns False
and leaves the table — hence the ad, its status and its rejection reason —
entirely unchanged, whoever the caller is (in particular the owner). -/
theorem update_ad_no_fields_noop (db : List Ad) (ad_id owner_id : Nat)
    (fields : UpdateFields) (h : fields.isEmpty = true) :
    AdService.update_ad db ad_id owner_id fields = (db, false) := by
  unfold AdService.update_ad
  cases hfind : AdService.get_by_id db ad_id with
  | none => rfl
  | some ad =>
    by_cases how : ad.owner_id ≠ owner_id
    · simp [how]
    · simp [how, h]

/-- Witness for C10: the owner's field-less edit of the rejected ad is a
no-op returning False. -/
theorem update_ad_no_fields_noop_witness :
    AdService.update_ad [exAdRejected] 1 7 {} = ([exAdRejected], false) :=
  update_ad_no_fields_noop [exAdRejected] 1 7 {} (by decide)

/-- C1 counterexample: the owner's edit call that supplies no allow-listed
field fails and leaves the REJECTED ad unchanged — its status does not
become PENDING and its rejection reason is not cleared — refuting the claim
that every owner edit call results in PENDING with a cleared reason. -/
theorem update_ad_owner_edit_cex :
    AdService.update_ad [exAdRejected] 1 7 {} = ([exAdRejected], false)
      ∧ exAdRejected.owner_id = 7
      ∧ exAdRejected.status ≠ AdStatus.PENDING
      ∧ exAdRejected.rejection_reason ≠ none := by
  decide

/-- C1 amended: an edit call by the owner that supplies at least one
allow-listed field succeeds and leaves every row with the edited id in
status PENDING with a cleared rejection reason, regardless of the prior
status; an edit call by a non-owner fails and mutates nothing. -/
theorem update_ad_owner_edit_spec (db : List Ad) (ad_id editor : Nat)
    (fields : UpdateFields) (ad : Ad)
    (hfind : AdService.get_by_id db ad_id = some ad) :
    (ad.owner_id = editor → fields.isEmpty = false →
      (AdService.update_ad db ad_id editor fields).2 = true ∧
      ∀ a ∈ (AdService.update_ad db ad_id editor fields).1,
        a.id = ad_id → a.status = AdStatus.PENDING ∧ a.rejection_reason = none)
    ∧ (ad.owner_id ≠ editor →
      AdService.update_ad db ad_id editor fields = (db, false)) := by
  have hmem : ad ∈ db := List.mem_of_find?_eq_some hfind
  have hid : ad.id = ad_id := by simpa using List.find?_some hfind
  constructor
  · intro hown hne
    simp only [AdService.update_ad, hfind]
    rw [if_neg (by simp [hown]), if_neg (by simp [hne])]
    refine ⟨?_, ?_⟩
    · exact decide_eq_true (updateWhere_rowcount_pos _ hmem (by simp [hid]))
    · intro a ha haid
      obtain ⟨b, hb, hab⟩ := mem_updateWhere_fst ha
      by_cases hpb : b.id = ad_id
      · rw [if_pos (by simp [hpb])] at hab
        rw [hab]
        exact ⟨rfl, rfl⟩
      · rw [if_neg (by simp [hpb])] at hab
        subst hab
        exact absurd haid hpb
  · intro hown
    simp only [AdService.update_ad, hfind]
    rw [if_pos hown]

/-- Witness for the amended C1: the owner's one-field edit of the REJECTED
ad succeeds. -/
theorem update_ad_owner_edit_spec_witness :
    (AdService.update_ad [exAdRejected] 1 7 exFieldsTitle).2 = true :=
  ((update_ad_owner_edit_spec [exAdRejected] 1 7 exFieldsTitle exAdRejected
    (by decide)).1 (by decide) (by decide)).1

/-- C2: approve_ad succeeds (returning the ad, now ACTIVE) exactly when an
ad with the given id exists in status PENDING; otherwise it returns None
and leaves the table unchanged; after one successful approve, a second
approve of the same id returns None — the PENDING→ACTIVE transition
happens exactly once. -/
theorem approve_ad_spec (db : List Ad) (ad_id mod_id : Nat) :
    ((ModerationService.approve_ad db ad_id mod_id).2.isSome = true ↔
      ∃ a ∈ db, a.id = ad_id ∧ a.status = AdStatus.PENDING)
    ∧ (∀ a', (ModerationService.approve_ad db ad_id mod_id).2 = some a' →
        a'.status = AdStatus.ACTIVE)
    ∧ ((ModerationService.approve_ad db ad_id mod_id).2 = none →
        (ModerationService.approve_ad db ad_id mod_id).1 = db)
    ∧ ((ModerationService.approve_ad db ad_id mod_id).2.isSome = true →
        (ModerationService.approve_ad
          (ModerationService.approve_ad db ad_id mod_id).1 ad_id mod_id).2 = none) := by
  cases hf : db.find? (fun a => decide (a.id = ad_id ∧ a.status = AdStatus.PENDING)) with
  | none =>
    refine ⟨?_, ?_, ?_, ?_⟩
    · simp only [ModerationService.approve_ad, hf]
      constructor
      · intro h
        simp at h
      · rintro ⟨a, ha, h1, h2⟩
        rw [List.find?_eq_none] at hf
        exact absurd (by simp [h1, h2]) (hf a ha)
    · intro a' h
      simp only [ModerationService.approve_ad, hf] at h
      exact Option.noConfusion h
    · intro _
      simp only [ModerationService.approve_ad, hf]
    · intro h
      simp only [ModerationService.approve_ad, hf] at h
      simp at h
  | some ad =>
    have hp := List.find?_some hf
    simp only [decide_eq_true_eq] at hp
    refine ⟨?_, ?_, ?_, ?_⟩
    · simp only [ModerationService.approve_ad, hf]
      constructor
      · intro _
        exact ⟨ad, List.mem_of_find?_eq_some hf, hp.1, hp.2⟩
      · intro _
        simp
    · intro a' h
      simp only [ModerationService.approve_ad, hf, Option.some.injEq] at h
      rw [← h]
    · intro h
      simp only [ModerationService.approve_ad, hf] at h
      simp at h
    · intro _
      have hnone : ((updateWhere (fun a => decide (a.id = ad_id ∧ a.status = AdStatus.PENDING))
          (fun a => { a with status := AdStatus.ACTIVE }) db).1).find?
          (fun a => decide (a.id = ad_id ∧ a.status = AdStatus.PENDING)) = none := by
        rw [List.find?_eq_none]
        intro x hx
        obtain ⟨b, _, hxb⟩ := mem_updateWhere_fst hx
        by_cases hpb : b.id = ad_id ∧ b.status = AdStatus.PENDING
        · rw [if_pos (by simpa using hpb)] at hxb
          simp [hxb]
        · rw [if_neg (by simpa using hpb)] at hxb
          simp [hxb, hpb]
      simp only [ModerationService.approve_ad, hf]
      simp only [ModerationService.approve_ad, hnone]

/-- Witness for C2: approving the concrete PENDING ad succeeds. -/
theorem approve_ad_spec_witness :
    (ModerationService.approve_ad [exAdPending] 1 9).2.isSome = true :=
  (approve_ad_spec [exAdPending] 1 9).1.mpr ⟨exAdPending, by decide, rfl, rfl⟩

/-- C8 counterexample: reject_ad performs no check on the reason — called
with the empty reason on the concrete PENDING ad it succeeds, transitioning
the ad to REJECTED with rejection_reason set to the empty string, refuting
"for every call, it fails when the reason is empty". -/
theorem reject_ad_empty_reason_succeeds :
    (ModerationService.reject_ad [exAdPending] 1 9 "").2 =
      some { exAdPending with status := AdStatus.REJECTED, rejection_reason := some "" } := by
  decide

/-- C8 amended: reject_ad itself never inspects the reason (non-emptiness
is enforced upstream by the conversational handler): for every reason,
including the empty one, it performs the conditional PENDING→REJECTED
transition attaching the given reason as rejection_reason when an ad with
the given id is PENDING, and returns None leaving the table unchanged when
no such PENDING ad exists. -/
theorem reject_ad_spec (db : List Ad) (ad_id mod_id : Nat) (reason : String) :
    ((ModerationService.reject_ad db ad_id mod_id reason).2.isSome = true ↔
      ∃ a ∈ db, a.id = ad_id ∧ a.status = AdStatus.PENDING)
    ∧ (∀ a', (ModerationService.reject_ad db ad_id mod_id reason).2 = some a' →
        a'.status = AdStatus.REJECTED ∧ a'.rejection_reason = some reason)
    ∧ ((ModerationService.reject_ad db ad_id mod_id reason).2 = none →
        (ModerationService.reject_ad db ad_id mod_id reason).1 = db) := by
  cases hf : db.find? (fun a => decide (a.id = ad_id ∧ a.status = AdStatus.PENDING)) with
  | none =>
    refine ⟨?_, ?_, ?_⟩
    · simp only [ModerationService.reject_ad, hf]
      constructor
      · intro h
        simp at h
      · rintro ⟨a, ha, h1, h2⟩
        rw [List.find?_eq_none] at hf
        exact absurd (by simp [h1, h2]) (hf a ha)
    · intro a' h
      simp only [ModerationService.reject_ad, hf] at h
      exact Option.noConfusion h
    · intro _
      simp only [ModerationService.reject_ad, hf]
  | some ad =>
    have hp := List.find?_some hf
    simp only [decide_eq_true_eq] at hp
    refine ⟨?_, ?_, ?_⟩
    · simp only [ModerationService.reject_ad, hf]
      constructor
      · intro _
        exact ⟨ad, List.mem_of_find?_eq_some hf, hp.1, hp.2⟩
      · intro _
        simp
    · intro a' h
      simp only [ModerationService.reject_ad, hf, Option.some.injEq] at h
      rw [← h]
      exact ⟨rfl, rfl⟩
    · intro h
      simp only [ModerationService.reject_ad, hf] at h
      simp at h

/-- Witness for the amended C8: rejecting the concrete PENDING ad with a
non-empty reason succeeds. -/
theorem reject_ad_spec_witness :
    (ModerationService.reject_ad [exAdPending] 1 9 "spam").2.isSome = true :=
  (reject_ad_spec [exAdPending] 1 9 "spam").1.mpr ⟨exAdPending, by decide, rfl, rfl⟩

/-- C4: set_status applies the owner transition only when the target is
RENTED or CLOSED, the caller is the owner and the ad is currently ACTIVE —
in that case it returns true and the targeted row changes only its status;
when any precondition fails it returns false and the whole table is
unchanged (e.g. RENTED requested on a PENDING ad is a no-op). -/
theorem set_status_spec (db : List Ad) (ad_id owner_id : Nat) (target : AdStatus)
    (ad : Ad) (hnodup : (db.map Ad.id).Nodup) (hmem : ad ∈ db) (hid : ad.id = ad_id) :
    (((target = AdStatus.RENTED ∨ target = AdStatus.CLOSED)
        ∧ owner_id = ad.owner_id ∧ ad.status = AdStatus.ACTIVE) →
      (AdService.set_status db ad_id owner_id target).2 = true ∧
      ∀ a ∈ (AdService.set_status db ad_id owner_id target).1,
        a.id = ad_id → a = { ad with status := target })
    ∧ (¬((target = AdStatus.RENTED ∨ target = AdStatus.CLOSED)
        ∧ owner_id = ad.owner_id ∧ ad.status = AdStatus.ACTIVE) →
      AdService.set_status db ad_id owner_id target = (db, false)) := by
  constructor
  · rintro ⟨htgt, hown, hact⟩
    unfold AdService.set_status
    rw [if_neg (not_not_intro htgt)]
    refine ⟨?_, ?_⟩
    · exact decide_eq_true
        (updateWhere_rowcount_pos _ hmem (by simp [hid, hown.symm, hact]))
    · intro a ha haid
      obtain ⟨b, hb, hab⟩ := mem_updateWhere_fst ha
      by_cases hpb : b.id = ad_id ∧ b.owner_id = owner_id ∧ b.status = AdStatus.ACTIVE
      · have hbad : b = ad :=
          List.inj_on_of_nodup_map hnodup hb hmem (by rw [hpb.1, hid])
        rw [if_pos (by simpa using hpb)] at hab
        rw [hab, hbad]
      · rw [if_neg (by simpa using hpb)] at hab
        have hbad : b = ad :=
          List.inj_on_of_nodup_map hnodup hb hmem (by rw [← hab, haid, hid])
        rw [hbad] at hpb
        exact absurd ⟨hid, hown.symm, hact⟩ hpb
  · intro hpre
    unfold AdService.set_status
    by_cases htgt : target = AdStatus.RENTED ∨ target = AdStatus.CLOSED
    · rw [if_neg (not_not_intro htgt)]
      have hno : ∀ a ∈ db,
          (decide (a.id = ad_id) &&
            (decide (a.owner_id = owner_id) && decide (a.status = AdStatus.ACTIVE)))
            = false := by
        intro a ha
        by_cases haid : a.id = ad_id
        · have haad : a = ad :=
            List.inj_on_of_nodup_map hnodup ha hmem (by rw [haid, hid])
          subst haad
          by_cases h2 : a.owner_id = owner_id
          · by_cases h3 : a.status = AdStatus.ACTIVE
            · exact absurd ⟨htgt, h2.symm, h3⟩ hpre
            · simp [h3]
          · simp [h2]
        · simp [haid]
      simp [updateWhere_nomatch _ _ _ hno]
    · rw [if_pos htgt]

/-- Witness for C4: the owner marks the concrete ACTIVE ad as RENTED. -/
theorem set_status_spec_witness :
    (AdService.set_status [exAdActive] 3 7 AdStatus.RENTED).2 = true :=
  ((set_status_spec [exAdActive] 3 7 AdStatus.RENTED exAdActive
      (by decide) (by decide) rfl).1 ⟨Or.inl rfl, rfl, rfl⟩).1

/-- C9: every ad returned by search has status ACTIVE and satisfies every
supplied criterion (a string criterion is supplied when it is present and
non-empty, mirroring the `if keywords:` guards; price bounds are supplied
whenever present): the keyword occurs case-insensitively in the title or
the description, the location criterion occurs case-insensitively in the
ad's location, the category matches exactly, and the price lies within the
inclusive bounds. -/
theorem search_spec (db : List Ad) (keywords location category : Option String)
    (min_price max_price : Option ℚ) (limit offset : Nat) (a : Ad)
    (ha : a ∈ AdService.search db keywords location category min_price max_price limit offset) :
    a.status = AdStatus.ACTIVE
    ∧ (∀ k, keywords = some k → k ≠ "" →
        (containsCI a.title k || containsCI a.description k) = true)
    ∧ (∀ l, location = some l → l ≠ "" → containsCI a.location l = true)
    ∧ (∀ c, category = some c → c ≠ "" → a.category = c)
    ∧ (∀ p, min_price = some p → p ≤ a.price_per_day)
    ∧ (∀ p, max_price = some p → a.price_per_day ≤ p) := by
  simp only [AdService.search] at ha
  have h5 := List.mem_of_mem_drop (List.mem_of_mem_take ha)
  obtain ⟨h4, hmax⟩ := mem_filterIf h5
  obtain ⟨h3, hmin⟩ := mem_filterIf h4
  obtain ⟨h2, hcat⟩ := mem_filterIf h3
  obtain ⟨h1, hloc⟩ := mem_filterIf h2
  obtain ⟨h0, hkw⟩ := mem_filterIf h1
  refine ⟨?_, ?_, ?_, ?_, ?_, ?_⟩
  · simpa using (List.mem_filter.mp h0).2
  · intro k hk hne
    have hkw' := hkw (by simp [hk, strTruthy, hne])
    rw [hk] at hkw'
    simpa using hkw'
  · intro l hl hne
    have hloc' := hloc (by simp [hl, strTruthy, hne])
    rw [hl] at hloc'
    simpa using hloc'
  · intro c hc hne
    have hcat' := hcat (by simp [hc, strTruthy, hne])
    rw [hc] at hcat'
    simpa using hcat'
  · intro p hp
    have hmin' := hmin (by simp [hp])
    rw [hp] at hmin'
    simpa using hmin'
  · intro p hp
    have hmax' := hmax (by simp [hp])
    rw [hp] at hmax'
    simpa using hmax'

/-- Witness for C9: the concrete ACTIVE ad returned by a fully-criterioned
search is ACTIVE and contains the keyword. -/
theorem search_spec_witness :
    exAdActive.status = AdStatus.ACTIVE
      ∧ (containsCI exAdActive.title "drill" || containsCI exAdActive.description "drill") = true :=
  ⟨(search_spec [exAdActive] (some "drill") (some "mos") (some "Tools")
      (some 100) (some 1000) 50 0 exAdActive (by decide)).1,
   (search_spec [exAdActive] (some "drill") (some "mos") (some "Tools")
      (some 100) (some 1000) 50 0 exAdActive (by decide)).2.1 "drill" rfl (by decide)⟩

theorem find?_pending_updateWhere_none (reports : List Report) (rid : Nat)
    (upd : Report → Report)
    (hupd : ∀ r, (upd r).status ≠ ReportStatus.PENDING) :
    ((updateWhere (fun r => decide (r.id = rid ∧ r.status = ReportStatus.PENDING))
        upd reports).1).find?
      (fun r => decide (r.id = rid ∧ r.status = ReportStatus.PENDING)) = none := by
  rw [List.find?_eq_none]
  intro x hx
  obtain ⟨b, hb, hxb⟩ := mem_updateWhere_fst hx
  by_cases hpb : b.id = rid ∧ b.status = ReportStatus.PENDING
  · rw [if_pos (by simpa using hpb)] at hxb
    subst hxb
    simp only [decide_eq_true_eq]
    rintro ⟨_, hs⟩
    exact hupd b hs
  · rw [if_neg (by simpa using hpb)] at hxb
    subst hxb
    simpa using hpb

/-- C3: reviewing a PENDING report with action "approve" marks it REVIEWED
and forces the referenced ad to CLOSED regardless of the ad's current
status (in particular RENTED); action "dismiss" marks it DISMISSED and
leaves the ads table untouched; reviewing a report that is not PENDING
returns None and changes nothing; and after any successful review a second
review of the same report returns None — each report is resolved exactly
once. -/
theorem review_report_spec (st : ModState) (rid mid : Nat) (comment : Option String)
    (rep : Report) (hnodup : (st.reports.map Report.id).Nodup)
    (hmem : rep ∈ st.reports) (hid : rep.id = rid) :
    (rep.status = ReportStatus.PENDING →
      ((ModerationService.review_report st rid mid "approve" comment).2.isSome = true
        ∧ (∀ r', (ModerationService.review_report st rid mid "approve" comment).2 = some r' →
            r'.status = ReportStatus.REVIEWED)
        ∧ (∀ r ∈ (ModerationService.review_report st rid mid "approve" comment).1.reports,
            r.id = rid → r.status = ReportStatus.REVIEWED)
        ∧ (∀ a ∈ (ModerationService.review_report st rid mid "approve" comment).1.ads,
            a.id = rep.ad_id → a.status = AdStatus.CLOSED)))
    ∧ (rep.status = ReportStatus.PENDING →
      ((ModerationService.review_report st rid mid "dismiss" comment).2.isSome = true
        ∧ (∀ r', (ModerationService.review_report st rid mid "dismiss" comment).2 = some r' →
            r'.status = ReportStatus.DISMISSED)
        ∧ (ModerationService.review_report st rid mid "dismiss" comment).1.ads = st.ads))
    ∧ (rep.status ≠ ReportStatus.PENDING → ∀ action,
        ModerationService.review_report st rid mid action comment = (st, none))
    ∧ (∀ action1 action2 comment2,
        (ModerationService.review_report st rid mid action1 comment).2.isSome = true →
        ModerationService.review_report
          (ModerationService.review_report st rid mid action1 comment).1 rid mid
          action2 comment2
          = ((ModerationService.review_report st rid mid action1 comment).1, none)) := by
  refine ⟨?_, ?_, ?_, ?_⟩
  · intro hpend
    obtain ⟨rep0, hf⟩ : ∃ r0, st.reports.find?
        (fun r => decide (r.id = rid ∧ r.status = ReportStatus.PENDING)) = some r0 := by
      have hs : (st.reports.find?
          (fun r => decide (r.id = rid ∧ r.status = ReportStatus.PENDING))).isSome = true :=
        List.find?_isSome.mpr ⟨rep, hmem, by simp [hid, hpend]⟩
      exact Option.isSome_iff_exists.mp hs
    have hp0 := List.find?_some hf
    simp only [decide_eq_true_eq] at hp0
    have hmem0 := List.mem_of_find?_eq_some hf
    have heq0 : rep0 = rep :=
      List.inj_on_of_nodup_map hnodup hmem0 hmem (by rw [hp0.1, hid])
    subst heq0
    simp only [ModerationService.review_report, hf, if_true]
    refine ⟨by simp, ?_, ?_, ?_⟩
    · intro r' h
      simp only [Option.some.injEq] at h
      rw [← h]
    · intro r hr hrid
      obtain ⟨b, hb, hrb⟩ := mem_updateWhere_fst hr
      by_cases hpb : b.id = rid ∧ b.status = ReportStatus.PENDING
      · rw [if_pos (by simpa using hpb)] at hrb
        rw [hrb]
      · rw [if_neg (by simpa using hpb)] at hrb
        have hbrep : b = rep0 :=
          List.inj_on_of_nodup_map hnodup hb hmem (by rw [← hrb, hrid, hid])
        rw [hbrep] at hpb
        exact absurd ⟨hid, hpend⟩ hpb
    · intro a ha haid
      obtain ⟨b, hb, hab⟩ := mem_updateWhere_fst ha
      by_cases hpb : b.id = rep0.ad_id
      · rw [if_pos (by simpa using hpb)] at hab
        rw [hab]
      · rw [if_neg (by simpa using hpb)] at hab
        rw [hab] at haid
        exact absurd haid hpb
  · intro hpend
    obtain ⟨rep0, hf⟩ : ∃ r0, st.reports.find?
        (fun r => decide (r.id = rid ∧ r.status = ReportStatus.PENDING)) = some r0 := by
      have hs : (st.reports.find?
          (fun r => decide (r.id = rid ∧ r.status = ReportStatus.PENDING))).isSome = true :=
        List.find?_isSome.mpr ⟨rep, hmem, by simp [hid, hpend]⟩
      exact Option.isSome_iff_exists.mp hs
    simp only [ModerationService.review_report, hf, if_true, if_false]
    refine ⟨by simp, ?_, rfl⟩
    intro r' h
    rw [← Option.some.inj h]
  · intro hnp action
    have hfn : st.reports.find?
        (fun r => decide (r.id = rid ∧ r.status = ReportStatus.PENDING)) = none := by
      rw [List.find?_eq_none]
      intro x hx
      simp only [decide_eq_true_eq]
      rintro ⟨hxi, hxs⟩
      have hxrep : x = rep :=
        List.inj_on_of_nodup_map hnodup hx hmem (by rw [hxi, hid])
      rw [hxrep] at hxs
      exact hnp hxs
    simp only [ModerationService.review_report, hfn]
  · intro action1 action2 comment2 hsome
    cases hf : st.reports.find?
        (fun r => decide (r.id = rid ∧ r.status = ReportStatus.PENDING)) with
    | none =>
      simp only [ModerationService.review_report, hf] at hsome
      simp at hsome
    | some rep0 =>
      by_cases hact : action1 = "approve"
      · subst hact
        have hfn := find?_pending_updateWhere_none st.reports rid (fun r => { r with reviewed_by := some mid, admin_comment := comment, status := ReportStatus.REVIEWED }) (fun r => by simp)
        simp only [ModerationService.review_report, hf, if_true]
        simp only [hfn]
      · have hfn := find?_pending_updateWhere_none st.reports rid (fun r => { r with reviewed_by := some mid, admin_comment := comment, status := ReportStatus.DISMISSED }) (fun r => by simp)
        simp only [ModerationService.review_report, hf, if_neg hact]
        simp only [hfn]

/-- Witness for C3: approving the concrete PENDING report against the
RENTED ad succeeds. -/
theorem review_report_spec_witness :
    (ModerationService.review_report ⟨[exAdRented], [exReport]⟩ 1 9 "approve" none).2.isSome
      = true :=
  ((review_report_spec ⟨[exAdRented], [exReport]⟩ 1 9 none exReport
      (by decide) (by decide) rfl).1 rfl).1
